import Mathlib

/-!
Verification of the feed-to-mastodon core: the entry store and its lifecycle
state machine, the identity/deduplication scheme, the fetch/post
reconciliation algorithm, and the posting coordinator, shallowly embedded
from the Go sources.
-/

namespace SHA256

/-- Truncate to a 32-bit word. -/
def w32 (n : Nat) : Nat := n % 4294967296

/-- Right rotation of a 32-bit word by `n` bits. -/
def rotr (n x : Nat) : Nat := ((x >>> n) ||| (x <<< (32 - n))) % 4294967296

/-- The 64 round constants of SHA-256 (FIPS 180-4), written in decimal. -/
def K : List Nat :=
  [1116352408, 1899447441, 3049323471, 3921009573,
   961987163, 1508970993, 2453635748, 2870763221,
   3624381080, 310598401, 607225278, 1426881987,
   1925078388, 2162078206, 2614888103, 3248222580,
   3835390401, 4022224774, 264347078, 604807628,
   770255983, 1249150122, 1555081692, 1996064986,
   2554220882, 2821834349, 2952996808, 3210313671,
   3336571891, 3584528711, 113926993, 338241895,
   666307205, 773529912, 1294757372, 1396182291,
   1695183700, 1986661051, 2177026350, 2456956037,
   2730485921, 2820302411, 3259730800, 3345764771,
   3516065817, 3600352804, 4094571909, 275423344,
   430227734, 506948616, 659060556, 883997877,
   958139571, 1322822218, 1537002063, 1747873779,
   1955562222, 2024104815, 2227730452, 2361852424,
   2428436474, 2756734187, 3204031479, 3329325298]

/-- Big-endian byte serialization of `n` into `len` bytes. -/
def toBytesBE : Nat → Nat → List Nat
  | 0, _ => []
  | len + 1, n => toBytesBE len (n / 256) ++ [n % 256]

/-- Message padding for SHA-256: a high bit, zero filler so the padded size is
a 64-byte multiple, and finally the original size in bits as eight bytes. -/
def padMessage (msg : List Nat) : List Nat :=
  let L := msg.length
  let k := (120 - (L + 1) % 64) % 64
  msg ++ [128] ++ List.replicate k 0 ++ toBytesBE 8 (8 * L)

/-- Group a byte list into big-endian 32-bit words. -/
def bytesToWords : List Nat → List Nat
  | b0 :: b1 :: b2 :: b3 :: rest =>
      (((b0 * 256 + b1) * 256 + b2) * 256 + b3) :: bytesToWords rest
  | _ => []

/-- Split a byte list into 64-byte blocks. -/
def toBlocks (l : List Nat) : List (List Nat) :=
  if hnil : l = [] then []
  else l.take 64 :: toBlocks (l.drop 64)
termination_by l.length
decreasing_by
  have hpos : 0 < l.length := List.length_pos.mpr hnil
  simp only [List.length_drop]
  omega

/-- Extend the 16 words of a block to the 64-word message schedule. -/
def extendWords (ws : List Nat) : Array Nat :=
  (List.range 48).foldl
    (fun a i =>
      let t := i + 16
      let x15 := a.getD (t - 15) 0
      let x2 := a.getD (t - 2) 0
      let s0 := (rotr 7 x15) ^^^ (rotr 18 x15) ^^^ (x15 >>> 3)
      let s1 := (rotr 17 x2) ^^^ (rotr 19 x2) ^^^ (x2 >>> 10)
      a.push (w32 (a.getD (t - 16) 0 + s0 + a.getD (t - 7) 0 + s1)))
    ws.toArray

/-- The eight 32-bit working variables of the SHA-256 compression function. -/
structure Hash8 where
  a : Nat
  b : Nat
  c : Nat
  d : Nat
  e : Nat
  f : Nat
  g : Nat
  h : Nat

/-- The initial hash state of SHA-256 (FIPS 180-4), written in decimal. -/
def initialHash : Hash8 :=
  ⟨1779033703, 3144134277, 1013904242, 2773480762,
   1359893119, 2600822924, 528734635, 1541459225⟩

/-- One application of the SHA-256 compression function to a 64-byte block. -/
def compressBlock (hs : Hash8) (block : List Nat) : Hash8 :=
  let ws := extendWords (bytesToWords block)
  let fin := (List.range 64).foldl
    (fun st i =>
      let S1 := (rotr 6 st.e) ^^^ (rotr 11 st.e) ^^^ (rotr 25 st.e)
      let ch := (st.e &&& st.f) ^^^ ((0xffffffff ^^^ st.e) &&& st.g)
      let temp1 := w32 (st.h + S1 + ch + K.getD i 0 + ws.getD i 0)
      let S0 := (rotr 2 st.a) ^^^ (rotr 13 st.a) ^^^ (rotr 22 st.a)
      let maj := (st.a &&& st.b) ^^^ (st.a &&& st.c) ^^^ (st.b &&& st.c)
      let temp2 := w32 (S0 + maj)
      ⟨w32 (temp1 + temp2), st.a, st.b, st.c, w32 (st.d + temp1), st.e, st.f, st.g⟩)
    hs
  ⟨w32 (hs.a + fin.a), w32 (hs.b + fin.b), w32 (hs.c + fin.c), w32 (hs.d + fin.d),
   w32 (hs.e + fin.e), w32 (hs.f + fin.f), w32 (hs.g + fin.g), w32 (hs.h + fin.h)⟩

/-- Serialize the final hash state to its 32-byte digest. -/
def hashBytes (hs : Hash8) : List Nat :=
  toBytesBE 4 hs.a ++ toBytesBE 4 hs.b ++ toBytesBE 4 hs.c ++ toBytesBE 4 hs.d ++
  toBytesBE 4 hs.e ++ toBytesBE 4 hs.f ++ toBytesBE 4 hs.g ++ toBytesBE 4 hs.h

/-- SHA-256 digest (32 bytes) of a byte list. -/
def sha256 (msg : List Nat) : List Nat :=
  hashBytes ((toBlocks (padMessage msg)).foldl compressBlock initialHash)

/-- Lowercase hexadecimal digit. -/
def hexDigit (n : Nat) : Char :=
  if n < 10 then Char.ofNat (48 + n) else Char.ofNat (87 + n)

/-- Lowercase hexadecimal rendering of a byte list, two characters per byte. -/
def hexOfBytes : List Nat → List Char
  | [] => []
  | b :: bs => hexDigit (b / 16 % 16) :: hexDigit (b % 16) :: hexOfBytes bs

/-- Lowercase-hexadecimal SHA-256 digest of a byte list. -/
def sha256hex (msg : List Nat) : String :=
  String.mk (hexOfBytes (sha256 msg))

/-- UTF-8 bytes of a string, as `Nat`s (the Go `[]byte(s)` conversion). -/
def stringToBytes (s : String) : List Nat :=
  s.toUTF8.toList.map (fun b => b.toNat)

theorem length_toBytesBE (len : Nat) : ∀ n, (toBytesBE len n).length = len := by
  induction len with
  | zero => intro n; rfl
  | succ k ih => intro n; simp [toBytesBE, ih]

theorem length_hashBytes (hs : Hash8) : (hashBytes hs).length = 32 := by
  simp [hashBytes, length_toBytesBE]

theorem length_sha256 (msg : List Nat) : (sha256 msg).length = 32 :=
  length_hashBytes _

theorem length_hexOfBytes (l : List Nat) : (hexOfBytes l).length = 2 * l.length := by
  induction l with
  | nil => rfl
  | cons b bs ih => simp [hexOfBytes, ih]; omega

theorem length_sha256hex (msg : List Nat) : (sha256hex msg).length = 64 := by
  show (String.mk (hexOfBytes (sha256 msg))).length = 64
  have h1 : (String.mk (hexOfBytes (sha256 msg))).length = (hexOfBytes (sha256 msg)).length := rfl
  rw [h1, length_hexOfBytes, length_sha256]

end SHA256

/-- A feed item as consumed by the identity generator (`gofeed.Item`):
feed-provided GUID, title, link, raw published-date string, and the canonical
string form of the parsed published date when one is present. -/
structure Item where
  guid : String
  title : String
  link : String
  published : String
  publishedParsed : Option String
deriving Repr, DecidableEq

/-- `GenerateEntryID` from `internal/feed/fetcher.go`: use the GUID of the item when
available, otherwise the SHA-256 hash of title + link + published-date string. -/
def GenerateEntryID (item : Item) : String :=
  if item.guid ≠ "" then
    item.guid
  else
    let publishedStr :=
      if item.published ≠ "" then
        item.published
      else
        match item.publishedParsed with
        | some t => t
        | none => ""
    let combined := item.title ++ item.link ++ publishedStr
    SHA256.sha256hex (SHA256.stringToBytes combined)

/-- A row of the `entries` table (`internal/database/db.go`): primary-key id,
opaque serialized entry data, nullable posted-at timestamp, and the fetched-at
and created-at timestamps. Timestamps are modelled as `Nat`. -/
structure Row where
  id : String
  entryData : List Nat
  postedAt : Option Nat
  fetchedAt : Nat
  createdAt : Nat
deriving Repr, DecidableEq

/-- The entries table, in insertion order. -/
abbrev Store := List Row

/-- Store-level failures: the recoverable not-found condition of
`MarkAsPosted`, and I/O-level storage errors. -/
inductive DBError where
  | notFound (id : String)
  | storage (msg : String)
deriving Repr, DecidableEq

/-- `SaveEntry` from `internal/database/db.go`:
`INSERT OR IGNORE INTO entries (id, entry_data, fetched_at, posted_at)
VALUES (?, ?, CURRENT_TIMESTAMP, NULL)` — a no-op when the id already exists,
succeeding either way. `now` is the value of `CURRENT_TIMESTAMP`. -/
def SaveEntry (s : Store) (id : String) (data : List Nat) (now : Nat) :
    Except DBError Store :=
  if s.any (fun r => r.id == id) then
    Except.ok s
  else
    Except.ok (s ++ [⟨id, data, none, now, now⟩])

/-- `MarkAsPosted` from `internal/database/db.go`:
`UPDATE entries SET posted_at = CURRENT_TIMESTAMP WHERE id = ?`, returning the
"entry not found" error when zero rows were affected. -/
def MarkAsPosted (s : Store) (id : String) (now : Nat) : Except DBError Store :=
  if s.any (fun r => r.id == id) then
    Except.ok (s.map fun r => if r.id == id then { r with postedAt := some now } else r)
  else
    Except.error (DBError.notFound id)

/-- The `ORDER BY fetched_at ASC` comparison. -/
def fetchedLE (a b : Row) : Prop := a.fetchedAt ≤ b.fetchedAt

instance : DecidableRel fetchedLE := fun a b => Nat.decLe a.fetchedAt b.fetchedAt

instance : IsTotal Row fetchedLE := ⟨fun a b => Nat.le_total a.fetchedAt b.fetchedAt⟩

instance : IsTrans Row fetchedLE := ⟨fun _ _ _ => Nat.le_trans⟩

/-- `GetUnpostedEntries` from `internal/database/db.go`:
`SELECT ... FROM entries WHERE posted_at IS NULL ORDER BY fetched_at ASC`,
with ` LIMIT n` appended exactly when the limit is positive. -/
def GetUnpostedEntries (s : Store) (limit : Int) : List Row :=
  let sorted := List.insertionSort fetchedLE (s.filter fun r => r.postedAt.isNone)
  if 0 < limit then sorted.take limit.toNat else sorted

/-- `GetStats` from `internal/database/db.go`: total, posted
(`posted_at IS NOT NULL`) and unposted (`posted_at IS NULL`) counts. -/
def GetStats (s : Store) : Nat × Nat × Nat :=
  (s.length,
   (s.filter fun r => r.postedAt.isSome).length,
   (s.filter fun r => r.postedAt.isNone).length)

/-- Modelled from the spec: `GetAllEntryIDs() -> set of id`, the full key
listing used by purge reconciliation. The Go implementation is absent from
the provided sources; only its caller `PurgeStaleEntries` is present. -/
def GetAllEntryIDs (s : Store) : List String := s.map (fun r => r.id)

/-- Modelled from the spec: `DeleteEntries(ids) -> count deleted`, a
best-effort bulk delete returning how many rows were actually removed. The Go
implementation is absent from the provided sources; only its caller is. -/
def DeleteEntries (s : Store) (ids : List String) : Store × Nat :=
  let remaining := s.filter (fun r => !(ids.contains r.id))
  (remaining, s.length - remaining.length)

/-- A feed snapshot (`gofeed.Feed`): title and ordered items. -/
structure Feed where
  title : String
  items : List Item
deriving Repr, DecidableEq

/-- `PurgeStaleEntries` from `internal/feed/fetcher.go`: refuse a nil feed;
otherwise delete every stored id that is not among the derived identifiers of
the feed items, returning the count deleted. -/
def PurgeStaleEntries (feed : Option Feed) (s : Store) : Except String (Store × Nat) :=
  match feed with
  | none => Except.error "feed is nil"
  | some f =>
    let feedIDs := f.items.map GenerateEntryID
    let dbIDs := GetAllEntryIDs s
    let toPurge := dbIDs.filter (fun id => !(feedIDs.contains id))
    if toPurge.length = 0 then
      Except.ok (s, 0)
    else
      let res := DeleteEntries s toPurge
      Except.ok (res.1, res.2)

/-- The Mastodon poster (`internal/mastodon/poster.go`): configured visibility
and content warning. The network client is abstracted as a function argument. -/
structure Poster where
  visibility : String
  contentWarning : String
deriving Repr, DecidableEq

/-- A status to be posted (`mastodon.Toot`): status text, visibility, and
spoiler text (content warning). -/
structure Toot where
  status : String
  visibility : String
  spoilerText : String
deriving Repr, DecidableEq

/-- `Poster.Post` from `internal/mastodon/poster.go`: in dry-run mode, log and
return success without touching the client; otherwise build the toot (adding
the content warning when configured) and call the client. The second component
records the network calls performed. -/
def Post (p : Poster) (net : Toot → Except String Unit) (content : String)
    (dryRun : Bool) : Except String Unit × List Toot :=
  if dryRun then
    (Except.ok (), [])
  else
    let toot0 : Toot := { status := content, visibility := p.visibility, spoilerText := "" }
    let toot := if p.contentWarning ≠ "" then { toot0 with spoilerText := p.contentWarning } else toot0
    (net toot, [toot])

/-- `Poster.PostEntries` from `internal/mastodon/poster.go`: render each entry,
skipping it on render failure; dispatch via `Post`, skipping on dispatch
failure; count successful dispatches. Returns the count and the accumulated
network calls. The loop body of `PostEntries` is the step function below. -/
def postEntriesStep (p : Poster) (net : Toot → Except String Unit)
    (render : List Nat → Except String String) (dryRun : Bool)
    (acc : Nat × List Toot) (entry : Row) : Nat × List Toot :=
  match render entry.entryData with
  | Except.error _ => acc
  | Except.ok content =>
    let pr := Post p net content dryRun
    match pr.1 with
    | Except.error _ => (acc.1, acc.2 ++ pr.2)
    | Except.ok _ => (acc.1 + 1, acc.2 ++ pr.2)

def PostEntries (p : Poster) (net : Toot → Except String Unit)
    (render : List Nat → Except String String) (entries : List Row)
    (dryRun : Bool) : Nat × List Toot :=
  entries.foldl (postEntriesStep p net render dryRun) (0, [])

/-- The mark-posted loop of `runPost` (`internal/commands/post.go`): for each
entry of `entries[:posted]`, call `MarkAsPosted`, logging and continuing on
error. -/
def markEntriesPosted (s : Store) (entries : List Row) (posted : Nat) (now : Nat) : Store :=
  (entries.take posted).foldl
    (fun st e =>
      match MarkAsPosted st e.id now with
      | Except.ok st2 => st2
      | Except.error _ => st)
    s

/-- The post-dispatch bookkeeping of `runPost` (`internal/commands/post.go`):
entries are marked posted only when not in dry-run mode. -/
def runPostMarkStep (s : Store) (entries : List Row) (posted : Nat) (dryRun : Bool)
    (now : Nat) : Store :=
  if dryRun then s else markEntriesPosted s entries posted now

/-- Store states reachable from the empty store by `SaveEntry` and
`MarkAsPosted` calls. -/
inductive Reachable : Store → Prop where
  | empty : Reachable []
  | save {s s2 : Store} {id : String} {d : List Nat} {t : Nat} :
      Reachable s → SaveEntry s id d t = Except.ok s2 → Reachable s2
  | mark {s s2 : Store} {id : String} {t : Nat} :
      Reachable s → MarkAsPosted s id t = Except.ok s2 → Reachable s2

/-- C4: for every feed item whose feed-provided GUID field is a non-empty
string, `GenerateEntryID` returns that GUID verbatim, regardless of the
title, link, and published-date contents of the item. -/
theorem generateEntryID_guid_precedence (item : Item) (h : item.guid ≠ "") :
    GenerateEntryID item = item.guid := by
  simp [GenerateEntryID, h]

/-- Witness for C4 at a concrete item. -/
theorem generateEntryID_guid_precedence_witness :
    GenerateEntryID ⟨"guid-1", "some title", "https://example.com", "Mon", none⟩ = "guid-1" :=
  generateEntryID_guid_precedence
    ⟨"guid-1", "some title", "https://example.com", "Mon", none⟩ (by decide)

/-- C5: for an item with empty GUID, `GenerateEntryID` equals the
lowercase-hexadecimal SHA-256 digest of title ++ link ++ d, where d is the raw
published string if non-empty, otherwise the canonical string form of the
parsed date if present, otherwise empty; the identifier always has 64
characters; and the function is pure, so structurally identical inputs yield
the identical identifier. -/
theorem generateEntryID_fallback_hash (item : Item) (h : item.guid = "") :
    GenerateEntryID item =
      SHA256.sha256hex (SHA256.stringToBytes (item.title ++ item.link ++
        (if item.published ≠ "" then item.published
         else
           match item.publishedParsed with
           | some d => d
           | none => ""))) ∧
    (GenerateEntryID item).length = 64 ∧
    (∀ item2 : Item, item2.guid = item.guid → item2.title = item.title →
      item2.link = item.link → item2.published = item.published →
      item2.publishedParsed = item.publishedParsed →
      GenerateEntryID item2 = GenerateEntryID item) := by
  have h1 : GenerateEntryID item =
      SHA256.sha256hex (SHA256.stringToBytes (item.title ++ item.link ++
        (if item.published ≠ "" then item.published
         else
           match item.publishedParsed with
           | some d => d
           | none => ""))) := by
    simp only [GenerateEntryID, h, ne_eq, not_true_eq_false, if_false]
  refine ⟨h1, ?_, ?_⟩
  · rw [h1]; exact SHA256.length_sha256hex _
  · intro item2 hg ht hl hp hpp
    cases item; cases item2
    simp only at hg ht hl hp hpp
    subst hg; subst ht; subst hl; subst hp; subst hpp
    rfl

/-- Witness for C5 at a concrete GUID-less item. -/
theorem generateEntryID_fallback_hash_witness :
    GenerateEntryID ⟨"", "My Title", "https://example.com/a", "", some "2024-01-01"⟩ =
      SHA256.sha256hex (SHA256.stringToBytes ("My Title" ++ "https://example.com/a" ++
        (if ("" : String) ≠ "" then ""
         else
           match (some "2024-01-01" : Option String) with
           | some d => d
           | none => ""))) ∧
    (GenerateEntryID ⟨"", "My Title", "https://example.com/a", "", some "2024-01-01"⟩).length = 64 :=
  ⟨(generateEntryID_fallback_hash ⟨"", "My Title", "https://example.com/a", "", some "2024-01-01"⟩ rfl).1,
   (generateEntryID_fallback_hash ⟨"", "My Title", "https://example.com/a", "", some "2024-01-01"⟩ rfl).2.1⟩

/-- C10: the no-separator concatenation makes the fallback identity
non-injective over distinct field triples: there are GUID-less items whose
titles and links both differ yet whose concatenations coincide, and
`GenerateEntryID` returns the identical identifier for both. -/
theorem generateEntryID_concat_collision :
    ∃ a b : Item, a.guid = "" ∧ b.guid = "" ∧ a.title ≠ b.title ∧ a.link ≠ b.link ∧
      a ≠ b ∧ GenerateEntryID a = GenerateEntryID b := by
  refine ⟨⟨"", "ab", "c", "", none⟩, ⟨"", "a", "bc", "", none⟩,
    rfl, rfl, by decide, by decide, by decide, ?_⟩
  simp only [GenerateEntryID]
  norm_num
  rw [show (("ab" : String) ++ "c") = ("a" : String) ++ "bc" from by decide]

/-- Partition of rows by posted state: total row count equals posted count
plus unposted count. -/
theorem length_filter_posted_partition (l : List Row) :
    l.length = (l.filter fun r => r.postedAt.isSome).length +
               (l.filter fun r => r.postedAt.isNone).length := by
  induction l with
  | nil => rfl
  | cons r rs ih =>
    cases h : r.postedAt <;>
      simp [List.filter_cons, h, ih] <;> omega

/-- C8: for every store state reachable from the empty store by `SaveEntry`
and `MarkAsPosted` calls, the three counts of `GetStats` satisfy
total = posted + unposted. -/
theorem getStats_consistent (s : Store) (_hs : Reachable s) :
    (GetStats s).1 = (GetStats s).2.1 + (GetStats s).2.2 :=
  length_filter_posted_partition s

/-- Witness for C8 at the empty store. -/
theorem getStats_consistent_witness :
    (GetStats []).1 = (GetStats []).2.1 + (GetStats []).2.2 :=
  getStats_consistent [] Reachable.empty

/-- C2: `SaveEntry` is an idempotent no-op on duplicates: when the id already
exists it returns success and leaves the store unchanged (same entry_data,
fetched_at, posted_at); from a store without the id, saving twice with the
identical id leaves exactly one row with that id, whose fetched_at is the time
of the first call and whose posted_at is null. -/
theorem saveEntry_idempotent_noop (s : Store) (id : String) (d1 d2 : List Nat)
    (t1 t2 : Nat) :
    ((∃ r ∈ s, r.id = id) → SaveEntry s id d2 t2 = Except.ok s) ∧
    ((¬ ∃ r ∈ s, r.id = id) →
      ∃ s1, SaveEntry s id d1 t1 = Except.ok s1 ∧
        SaveEntry s1 id d2 t2 = Except.ok s1 ∧
        (s1.filter fun r => r.id == id).length = 1 ∧
        (∀ r ∈ s1, r.id = id → r.fetchedAt = t1 ∧ r.postedAt = none)) := by
  constructor
  · rintro ⟨r, hr, hid⟩
    have hany : s.any (fun r => r.id == id) = true :=
      List.any_eq_true.mpr ⟨r, hr, by simp [hid]⟩
    simp [SaveEntry, hany]
  · intro hno
    have hany : s.any (fun r => r.id == id) = false := by
      rw [Bool.eq_false_iff]
      intro hc
      rcases List.any_eq_true.mp hc with ⟨r, hr, hb⟩
      exact hno ⟨r, hr, by simpa using hb⟩
    refine ⟨s ++ [⟨id, d1, none, t1, t1⟩], ?_, ?_, ?_, ?_⟩
    · simp [SaveEntry, hany]
    · have hany2 : (s ++ [(⟨id, d1, none, t1, t1⟩ : Row)]).any (fun r => r.id == id) = true := by
        refine List.any_eq_true.mpr ⟨⟨id, d1, none, t1, t1⟩, ?_, by simp⟩
        simp
      simp [SaveEntry, hany2]
    · rw [List.filter_append]
      have h1 : (s.filter fun r => r.id == id) = [] := by
        rw [List.filter_eq_nil_iff]
        intro r hr hb
        exact hno ⟨r, hr, by simpa using hb⟩
      simp [h1]
    · intro r hr hid
      rcases List.mem_append.mp hr with h | h
      · exact absurd ⟨r, h, hid⟩ hno
      · rw [List.mem_singleton.mp h]
        exact ⟨rfl, rfl⟩

/-- Witness for C2: two saves of the same id from the empty store. -/
theorem saveEntry_idempotent_noop_witness :
    ∃ s1, SaveEntry [] "e1" [7] 3 = Except.ok s1 ∧
      SaveEntry s1 "e1" [8] 5 = Except.ok s1 ∧
      (s1.filter fun r => r.id == "e1").length = 1 ∧
      (∀ r ∈ s1, r.id = "e1" → r.fetchedAt = 3 ∧ r.postedAt = none) :=
  (saveEntry_idempotent_noop [] "e1" [7] [8] 3 5).2 (by simp)

/-- C7: `MarkAsPosted` succeeds exactly when a row with the id exists, setting
posted_at to now on the matching rows and leaving every other row unchanged;
on an unknown id it fails with the not-found condition, which differs from any
storage error, and no modified store is produced. -/
theorem markAsPosted_spec (s : Store) (id : String) (now : Nat) :
    ((∃ r ∈ s, r.id = id) →
      ∃ s2, MarkAsPosted s id now = Except.ok s2 ∧
        s2 = s.map (fun r => if r.id == id then { r with postedAt := some now } else r) ∧
        s2.length = s.length ∧
        (∀ r ∈ s, r.id = id → ({ r with postedAt := some now } : Row) ∈ s2) ∧
        (∀ r ∈ s, r.id ≠ id → r ∈ s2)) ∧
    ((¬ ∃ r ∈ s, r.id = id) → MarkAsPosted s id now = Except.error (DBError.notFound id)) ∧
    (∀ m, MarkAsPosted s id now ≠ Except.error (DBError.storage m)) := by
  refine ⟨?_, ?_, ?_⟩
  · rintro ⟨r, hr, hid⟩
    have hany : s.any (fun r => r.id == id) = true :=
      List.any_eq_true.mpr ⟨r, hr, by simp [hid]⟩
    refine ⟨_, by simp [MarkAsPosted, hany], rfl, by simp, ?_, ?_⟩
    · intro r2 hr2 hid2
      exact List.mem_map.mpr ⟨r2, hr2, by simp [hid2]⟩
    · intro r2 hr2 hid2
      exact List.mem_map.mpr ⟨r2, hr2, by simp [hid2]⟩
  · intro hno
    have hany : s.any (fun r => r.id == id) = false := by
      rw [Bool.eq_false_iff]
      intro hc
      rcases List.any_eq_true.mp hc with ⟨r, hr, hb⟩
      exact hno ⟨r, hr, by simpa using hb⟩
    simp [MarkAsPosted, hany]
  · intro m
    unfold MarkAsPosted
    split <;> simp

/-- Witness for C7: success on a present id, not-found on an absent id. -/
theorem markAsPosted_spec_witness :
    MarkAsPosted [⟨"a", [], none, 1, 1⟩] "a" 7 = Except.ok [⟨"a", [], some 7, 1, 1⟩] ∧
    MarkAsPosted [⟨"a", [], none, 1, 1⟩] "b" 7 = Except.error (DBError.notFound "b") := by
  constructor
  · obtain ⟨s2, h1, h2, -⟩ :=
      (markAsPosted_spec [⟨"a", [], none, 1, 1⟩] "a" 7).1
        ⟨⟨"a", [], none, 1, 1⟩, List.mem_singleton_self _, rfl⟩
    rw [h1, h2]
    rfl
  · exact (markAsPosted_spec [⟨"a", [], none, 1, 1⟩] "b" 7).2.1 (by simp)

/-- C3: `GetUnpostedEntries` returns exactly the rows with null posted_at,
sorted ascending by fetched_at; a positive limit yields the limit-prefix of
the full sorted result (the limit oldest) and at most limit rows; a zero or
negative limit returns all matching rows; when nothing matches the result is
the empty list. -/
theorem getUnpostedEntries_spec (s : Store) (limit : Int) :
    List.Sorted fetchedLE (GetUnpostedEntries s limit) ∧
    (limit ≤ 0 → (GetUnpostedEntries s limit).Perm (s.filter fun r => r.postedAt.isNone)) ∧
    (0 < limit →
      GetUnpostedEntries s limit = (GetUnpostedEntries s 0).take limit.toNat ∧
      (GetUnpostedEntries s limit).length ≤ limit.toNat) ∧
    ((s.filter fun r => r.postedAt.isNone) = [] → GetUnpostedEntries s limit = []) := by
  have hsorted : List.Sorted fetchedLE
      (List.insertionSort fetchedLE (s.filter fun r => r.postedAt.isNone)) :=
    List.sorted_insertionSort fetchedLE _
  have hperm := List.perm_insertionSort fetchedLE (s.filter fun r => r.postedAt.isNone)
  refine ⟨?_, ?_, ?_, ?_⟩
  · unfold GetUnpostedEntries
    by_cases hl : 0 < limit
    · simp only [hl, if_true]
      exact List.Pairwise.sublist (List.take_sublist _ _) hsorted
    · simp only [hl, if_false]
      exact hsorted
  · intro hle
    have hl : ¬ 0 < limit := not_lt.mpr hle
    unfold GetUnpostedEntries
    simp only [hl, if_false]
    exact hperm
  · intro hl
    have h0 : ¬ (0 : Int) < 0 := by omega
    constructor
    · unfold GetUnpostedEntries
      simp only [hl, if_true, h0, if_false]
    · unfold GetUnpostedEntries
      simp only [hl, if_true]
      rw [List.length_take]
      exact Nat.min_le_left _ _
  · intro hempty
    unfold GetUnpostedEntries
    rw [hempty]
    by_cases hl : 0 < limit <;> simp [hl]

/-- Witness for C3 at a concrete two-row store and limit 1. -/
theorem getUnpostedEntries_spec_witness :
    GetUnpostedEntries [⟨"a", [], none, 5, 5⟩, ⟨"b", [], none, 2, 2⟩] 1 =
      (GetUnpostedEntries [⟨"a", [], none, 5, 5⟩, ⟨"b", [], none, 2, 2⟩] 0).take 1 ∧
    (GetUnpostedEntries [⟨"a", [], none, 5, 5⟩, ⟨"b", [], none, 2, 2⟩] 1).length ≤ 1 :=
  (getUnpostedEntries_spec [⟨"a", [], none, 5, 5⟩, ⟨"b", [], none, 2, 2⟩] 1).2.2.1
    (by decide)

/-- In dry-run mode a posting step appends no network call. -/
theorem postEntriesStep_dryRun_snd (p : Poster) (net : Toot → Except String Unit)
    (render : List Nat → Except String String) (acc : Nat × List Toot) (e : Row) :
    (postEntriesStep p net render true acc e).2 = acc.2 := by
  unfold postEntriesStep Post
  cases render e.entryData <;> simp

/-- In dry-run mode the posting loop accumulates no network calls. -/
theorem postEntries_foldl_dryRun_snd (p : Poster) (net : Toot → Except String Unit)
    (render : List Nat → Except String String) :
    ∀ (entries : List Row) (acc : Nat × List Toot),
      (entries.foldl (postEntriesStep p net render true) acc).2 = acc.2 := by
  intro entries
  induction entries with
  | nil => intro acc; rfl
  | cons e es ih =>
    intro acc
    rw [List.foldl_cons, ih, postEntriesStep_dryRun_snd]

/-- C9: with dryRun = true, `Post` performs no network call and returns
success for every content string, including the empty string; consequently
the posting loop performs no network calls in dry-run mode, and the dry-run
branch of `runPost` leaves the posted state of every entry untouched. -/
theorem post_dryRun_isolation :
    (∀ (p : Poster) (net : Toot → Except String Unit) (content : String),
      Post p net content true = (Except.ok (), [])) ∧
    (∀ (p : Poster) (net : Toot → Except String Unit)
        (render : List Nat → Except String String) (entries : List Row),
      (PostEntries p net render entries true).2 = []) ∧
    (∀ (s : Store) (entries : List Row) (posted : Nat) (now : Nat),
      runPostMarkStep s entries posted true now = s) := by
  refine ⟨fun p net content => rfl, ?_, fun s entries posted now => rfl⟩
  intro p net render entries
  exact postEntries_foldl_dryRun_snd p net render entries (0, [])

/-- Witness for C9 at empty content and a concrete store. -/
theorem post_dryRun_isolation_witness :
    Post ⟨"public", ""⟩ (fun _ => Except.error "network down") "" true =
      (Except.ok (), []) ∧
    runPostMarkStep [⟨"a", [], none, 1, 1⟩] [⟨"a", [], none, 1, 1⟩] 1 true 9 =
      [⟨"a", [], none, 1, 1⟩] :=
  ⟨post_dryRun_isolation.1 ⟨"public", ""⟩ (fun _ => Except.error "network down") "",
   post_dryRun_isolation.2.2 [⟨"a", [], none, 1, 1⟩] [⟨"a", [], none, 1, 1⟩] 1 9⟩

/-- `List.contains` agrees with list membership for strings. -/
theorem contains_eq_decide_mem (l : List String) (a : String) :
    l.contains a = decide (a ∈ l) := by
  simp [List.contains]

/-- C6: `PurgeStaleEntries` refuses a nil feed with an error and deletes
nothing; on a present snapshot it deletes exactly the stored ids that are not
derived identifiers of the snapshot items and returns the count deleted, so
an empty snapshot removes every entry and a snapshot covering all stored ids
removes none. -/
theorem purgeStaleEntries_spec (s : Store) :
    PurgeStaleEntries none s = Except.error "feed is nil" ∧
    (∀ f : Feed, ∃ s2 n,
      PurgeStaleEntries (some f) s = Except.ok (s2, n) ∧
      s2 = s.filter (fun r => (f.items.map GenerateEntryID).contains r.id) ∧
      n = s.length - s2.length ∧
      (f.items = [] → s2 = [] ∧ n = s.length) ∧
      ((∀ r ∈ s, r.id ∈ f.items.map GenerateEntryID) → s2 = s ∧ n = 0)) := by
  refine ⟨rfl, ?_⟩
  intro f
  have hfilter : s.filter (fun r =>
      !((GetAllEntryIDs s).filter
          (fun i => !((f.items.map GenerateEntryID).contains i))).contains r.id) =
      s.filter (fun r => (f.items.map GenerateEntryID).contains r.id) := by
    apply List.filter_congr
    intro r hr
    rw [contains_eq_decide_mem, contains_eq_decide_mem]
    by_cases hmem : r.id ∈ f.items.map GenerateEntryID
    · simp only [hmem, decide_eq_true_eq, Bool.not_eq_true']
      simp [hmem]
      exact Or.inr (List.mem_map.mp hmem)
    · simp [hmem]
      refine ⟨?_, ?_⟩
      · show r.id ∈ s.map (fun r => r.id)
        exact List.mem_map.mpr ⟨r, hr, rfl⟩
      · intro x hx he
        exact hmem (List.mem_map.mpr ⟨x, hx, he⟩)
  have hcorr1 : f.items = [] →
      s.filter (fun r => (f.items.map GenerateEntryID).contains r.id) = [] ∧
      s.length - (s.filter (fun r => (f.items.map GenerateEntryID).contains r.id)).length
        = s.length := by
    intro hi
    have : s.filter (fun r => (f.items.map GenerateEntryID).contains r.id) = [] := by
      rw [hi]
      simp [List.filter_eq_nil_iff]
    rw [this]
    simp
  have hcorr2 : (∀ r ∈ s, r.id ∈ f.items.map GenerateEntryID) →
      s.filter (fun r => (f.items.map GenerateEntryID).contains r.id) = s ∧
      s.length - (s.filter (fun r => (f.items.map GenerateEntryID).contains r.id)).length
        = 0 := by
    intro hcov
    have : s.filter (fun r => (f.items.map GenerateEntryID).contains r.id) = s := by
      rw [List.filter_eq_self]
      intro r hr
      rw [contains_eq_decide_mem]
      exact decide_eq_true (hcov r hr)
    rw [this]
    simp
  by_cases hz : ((GetAllEntryIDs s).filter
      (fun i => !((f.items.map GenerateEntryID).contains i))).length = 0
  · have htp : (GetAllEntryIDs s).filter
        (fun i => !((f.items.map GenerateEntryID).contains i)) = [] :=
      List.length_eq_zero.mp hz
    have hs2 : s.filter (fun r => (f.items.map GenerateEntryID).contains r.id) = s := by
      rw [← hfilter, htp]
      simp
    refine ⟨s.filter (fun r => (f.items.map GenerateEntryID).contains r.id),
      s.length - (s.filter (fun r => (f.items.map GenerateEntryID).contains r.id)).length,
      ?_, rfl, rfl, hcorr1, hcorr2⟩
    show PurgeStaleEntries (some f) s = _
    unfold PurgeStaleEntries
    simp only [hz, if_true, hs2]
    simp
  · refine ⟨s.filter (fun r => (f.items.map GenerateEntryID).contains r.id),
      s.length - (s.filter (fun r => (f.items.map GenerateEntryID).contains r.id)).length,
      ?_, rfl, rfl, hcorr1, hcorr2⟩
    show PurgeStaleEntries (some f) s = _
    unfold PurgeStaleEntries DeleteEntries
    simp only [hz, if_false, hfilter]

/-- Witness for C6: store {1,2,3} against a snapshot covering only {1,2}
purges exactly entry 3 and returns 1; the nil feed errors. -/
theorem purgeStaleEntries_spec_witness :
    PurgeStaleEntries none
      [⟨"g1", [], none, 1, 1⟩, ⟨"g2", [], none, 2, 2⟩, ⟨"g3", [], none, 3, 3⟩] =
      Except.error "feed is nil" ∧
    ∃ s2 n,
      PurgeStaleEntries (some ⟨"t", [⟨"g1", "", "", "", none⟩, ⟨"g2", "", "", "", none⟩]⟩)
        [⟨"g1", [], none, 1, 1⟩, ⟨"g2", [], none, 2, 2⟩, ⟨"g3", [], none, 3, 3⟩] =
        Except.ok (s2, n) ∧
      s2 = [⟨"g1", [], none, 1, 1⟩, ⟨"g2", [], none, 2, 2⟩] ∧ n = 1 := by
  have h := purgeStaleEntries_spec
    [⟨"g1", [], none, 1, 1⟩, ⟨"g2", [], none, 2, 2⟩, ⟨"g3", [], none, 3, 3⟩]
  refine ⟨h.1, ?_⟩
  obtain ⟨s2, n, hres, hs2, hn, -, -⟩ :=
    h.2 ⟨"t", [⟨"g1", "", "", "", none⟩, ⟨"g2", "", "", "", none⟩]⟩
  refine ⟨s2, n, hres, ?_, ?_⟩
  · rw [hs2]; rfl
  · rw [hn, hs2]; rfl

/-- C1 (evaluation of the code at the failing input): with a batch of two
unposted entries where the first fails to render and the second renders and
dispatches successfully, `PostEntries` returns a count of 1, and the
mark-posted step of `runPost` — which slices the first `posted` entries by
position — marks the FAILED first entry as posted and leaves the successfully
dispatched second entry unposted, the opposite of the claimed bookkeeping. -/
theorem runPost_marks_wrong_entry :
    (PostEntries ⟨"public", ""⟩ (fun _ => Except.ok ())
        (fun d => if d = [0] then Except.error "render failed" else Except.ok "rendered")
        [⟨"id1", [0], none, 1, 1⟩, ⟨"id2", [1], none, 2, 2⟩] false).1 = 1 ∧
    runPostMarkStep [⟨"id1", [0], none, 1, 1⟩, ⟨"id2", [1], none, 2, 2⟩]
        [⟨"id1", [0], none, 1, 1⟩, ⟨"id2", [1], none, 2, 2⟩] 1 false 9 =
      [⟨"id1", [0], some 9, 1, 1⟩, ⟨"id2", [1], none, 2, 2⟩] := by
  constructor <;> rfl
